import Mathlib

/-!
Shallow embedding of the two Aliyun OSS storage drivers of node-flydrive
(`src/Drivers/AliyunOSS.ts` and `src/Drivers/Aliyun.js`) and proofs about
the storage-contract properties stated in the specification.

The backend SDK (`ali-oss`) is an external collaborator: it is modelled as a
record of abstract functions (`Client`), one per primitive the drivers call.
JavaScript runtime primitives used by the drivers (`Buffer.toString`,
`Number`, `new Date`) are likewise abstract functions (`Env`).  Errors thrown
by the SDK are values of `BackendError`; a driver operation that can throw is
a Lean function returning `Except`.
-/

/-- A backend-native error thrown by the `ali-oss` SDK: the drivers inspect
its `name` (e.g. `"NoSuchKeyError"`) and its HTTP `status` (`e.status`,
possibly absent). -/
structure BackendError where
  name : String
  status : Option Nat
deriving DecidableEq, Repr

/-- A backend-native success result.  The drivers treat it as opaque except
for `res.headers['content-length']` and `res.headers['last-modified']`
(read by `getStat`); `tag` stands for the rest of the opaque payload and
lets concrete test clients record which arguments they were called with. -/
structure OSSResult where
  contentLength : String
  lastModified : String
  tag : String
deriving DecidableEq, Repr

/-- Result of the SDK `get` call: carries a byte buffer `content` alongside
the opaque metadata; the whole value is what the driver stores as `raw`. -/
structure GetResult where
  content : List Nat
  meta : OSSResult
deriving DecidableEq, Repr

/-- An opaque readable stream handle, as returned by the SDK's `getStream`. -/
structure StreamVal where
  sid : Nat
deriving DecidableEq, Repr

/-- Result of the SDK `getStream` call: the driver destructures `{ stream }`. -/
structure StreamResult where
  stream : StreamVal
deriving DecidableEq, Repr

/-- The values a driver response's `raw` field can hold: a backend success
result, the full SDK `get` result, a caught backend error (`exists` on 404
stores the error itself as `raw`), a signed-url string, or JavaScript
`undefined` (what `AliyunOSS.move` returns as `raw`). -/
inductive Raw where
  | res (r : OSSResult)
  | getRes (g : GetResult)
  | err (e : BackendError)
  | str (s : String)
  | undef
deriving DecidableEq, Repr

/-- Response envelope `{ raw }`. -/
structure Response where
  raw : Raw
deriving DecidableEq, Repr

/-- Response envelope `{ exists, raw }`. -/
structure ExistsResponse where
  «exists» : Bool
  raw : Raw
deriving DecidableEq, Repr

/-- Response envelope `{ content, raw }` of the read operations. -/
structure ContentResponse (α : Type) where
  content : α
  raw : Raw
deriving DecidableEq, Repr

/-- Response envelope `{ signedUrl, raw }`. -/
structure SignedUrlResponse where
  signedUrl : String
  raw : Raw
deriving DecidableEq, Repr

/-- Response envelope `{ size, modified, raw }`.  `size` is the result of
JavaScript `Number(...)` and `modified` of `new Date(...)`, both modelled
abstractly (`Env`). -/
structure StatResponse where
  size : Int
  modified : Nat
  raw : Raw
deriving DecidableEq, Repr

/-- Modelled from the spec: the error taxonomy of `src/Exceptions` (not under
`src/` here; only its call sites are).  Per the spec, `FileNotFound` carries
the original cause and the path, and `UnknownException` carries the original
cause, the backend error-code string, and the path — matching the call sites
`new FileNotFound(err, path)` and `new UnknownException(err, err.name, path)`
in `AliyunOSS.ts`. -/
inductive DriverError where
  | fileNotFound (cause : BackendError) (path : String)
  | unknownException (cause : BackendError) (code : String) (path : String)
deriving DecidableEq, Repr

/-- The `ali-oss` SDK client (`this.$driver` / `this.oss`), an external
collaborator: one abstract function per primitive the drivers call.  A
fallible primitive returns `Except BackendError _` (throwing = `.error`). -/
structure Client where
  head : String → Except BackendError OSSResult
  get : String → Except BackendError GetResult
  put : String → List Nat → Except BackendError OSSResult
  delete : String → Except BackendError OSSResult
  copy : String → String → Except BackendError OSSResult
  signatureUrl : String → Nat → Option Nat → Except BackendError String
  getStream : String → Except BackendError StreamResult
  putStream : String → StreamVal → Except BackendError OSSResult
  generateObjectUrl : String → String

/-- JavaScript runtime primitives the drivers use, as abstract functions:
`decode e b` models `Buffer.toString(e)` on buffer `b`; `toNumber` models
`Number(...)`; `toDate` models `new Date(...)`. -/
structure Env where
  decode : String → List Nat → String
  toNumber : String → Int
  toDate : String → Nat

/-- `handleError` of `AliyunOSS.ts`: classifies a backend error by its
`name`, producing the taxonomy error the driver throws. -/
def handleError (err : BackendError) (path : String) : DriverError :=
  if err.name = "NoSuchKeyError" then DriverError.fileNotFound err path
  else DriverError.unknownException err err.name path

/-- `AliyunOSS.copy(src, dest)`: calls the SDK as `copy(dest, src)` (the
backend reverses source and destination), wraps the result, classifies
errors against `src`. -/
def AliyunOSS.copy (c : Client) (src dest : String) : Except DriverError Response :=
  match c.copy dest src with
  | Except.ok r => Except.ok { raw := Raw.res r }
  | Except.error e => Except.error (handleError e src)

/-- `AliyunOSS.delete(location)`. -/
def AliyunOSS.delete (c : Client) (location : String) : Except DriverError Response :=
  match c.delete location with
  | Except.ok r => Except.ok { raw := Raw.res r }
  | Except.error e => Except.error (handleError e location)

/-- `AliyunOSS.exists(location)`: `head`, mapping a caught error with
`status === 404` to `{ exists: false, raw: e }` and classifying any other
error. -/
def AliyunOSS.exists (c : Client) (location : String) : Except DriverError ExistsResponse :=
  match c.head location with
  | Except.ok r => Except.ok { «exists» := true, raw := Raw.res r }
  | Except.error e =>
    if e.status = some 404 then Except.ok { «exists» := false, raw := Raw.err e }
    else Except.error (handleError e location)

/-- `AliyunOSS.getBuffer(location)`: SDK `get`, returning the buffer
`result.content` with `result` itself as `raw`. -/
def AliyunOSS.getBuffer (c : Client) (location : String) :
    Except DriverError (ContentResponse (List Nat)) :=
  match c.get location with
  | Except.ok result => Except.ok { content := result.content, raw := Raw.getRes result }
  | Except.error e => Except.error (handleError e location)

/-- `AliyunOSS.get(location, encoding)`: awaits `getBuffer` and decodes its
content with the given encoding, passing the buffer result's `raw` through. -/
def AliyunOSS.get (c : Client) (env : Env) (location : String) (encoding : String) :
    Except DriverError (ContentResponse String) :=
  match AliyunOSS.getBuffer c location with
  | Except.ok bufferResult =>
    Except.ok { content := env.decode encoding bufferResult.content, raw := bufferResult.raw }
  | Except.error e => Except.error e

/-- `AliyunOSS.get(location)` with the encoding argument omitted: the
declaration default `encoding = 'utf-8'` applies. -/
def AliyunOSS.getDefaultEnc (c : Client) (env : Env) (location : String) :
    Except DriverError (ContentResponse String) :=
  AliyunOSS.get c env location "utf-8"

/-- The options object of `AliyunOSS.getSignedUrl`: the driver reads the
contract field `expiry` and `Object.assign`s the caller's options over
`{ expires: expiry }`, so a caller-supplied SDK field `expires` (from
`SignatureUrlOptions`) would override it. -/
structure SignedUrlOptions where
  expiry : Option Nat
  expires : Option Nat
deriving DecidableEq, Repr

/-- The `params` object `Object.assign({ expires: expiry }, options)` built
by `AliyunOSS.getSignedUrl`, where `expiry = options.expiry ?? 900`. -/
def mkSignParams (options : SignedUrlOptions) : Nat × Option Nat :=
  let expiry := options.expiry.getD 900
  (options.expires.getD expiry, options.expiry)

/-- `AliyunOSS.getSignedUrl(location, options)`: builds `params` and calls
the SDK `signatureUrl`, returning the resulting string both as `signedUrl`
and as `raw`. -/
def AliyunOSS.getSignedUrl (c : Client) (location : String) (options : SignedUrlOptions) :
    Except DriverError SignedUrlResponse :=
  let params := mkSignParams options
  match c.signatureUrl location params.1 params.2 with
  | Except.ok result => Except.ok { signedUrl := result, raw := Raw.str result }
  | Except.error e => Except.error (handleError e location)

/-- `AliyunOSS.getStat(location)`: `head`, then `Number` of the
`content-length` header and `new Date` of the `last-modified` header. -/
def AliyunOSS.getStat (c : Client) (env : Env) (location : String) :
    Except DriverError StatResponse :=
  match c.head location with
  | Except.ok result =>
    Except.ok { size := env.toNumber result.contentLength,
                modified := env.toDate result.lastModified,
                raw := Raw.res result }
  | Except.error e => Except.error (handleError e location)

/-- `AliyunOSS.getStream(location)`: destructures `{ stream }` from the SDK
result.  There is no `try`/`catch`: a backend error propagates to the caller
unwrapped, so the error type here is `BackendError`, not `DriverError`. -/
def AliyunOSS.getStream (c : Client) (location : String) : Except BackendError StreamVal :=
  match c.getStream location with
  | Except.ok r => Except.ok r.stream
  | Except.error e => Except.error e

/-- `AliyunOSS.getUrl(location)`: returns
`this.$driver.generateObjectUrl(location)`, a synchronous call on the
client. -/
def AliyunOSS.getUrl (c : Client) (location : String) : String :=
  c.generateObjectUrl location

/-- `AliyunOSS.move(src, dest)`: awaits `this.copy(src, dest)`, then
`this.delete(src)`, then returns `{ raw: undefined }`.  An error thrown by
either step propagates. -/
def AliyunOSS.move (c : Client) (src dest : String) : Except DriverError Response :=
  match AliyunOSS.copy c src dest with
  | Except.error e => Except.error e
  | Except.ok _ =>
    match AliyunOSS.delete c src with
    | Except.error e => Except.error e
    | Except.ok _ => Except.ok { raw := Raw.undef }

/-- `AliyunOSS.put(location, content)`. -/
def AliyunOSS.put (c : Client) (location : String) (content : List Nat) :
    Except DriverError Response :=
  match c.put location content with
  | Except.ok result => Except.ok { raw := Raw.res result }
  | Except.error e => Except.error (handleError e location)

/-- The `resetable` npm package (external collaborator of `Aliyun.js`): a
cell holding a current value and the original it resets to.  `set` replaces
the current value; `pull` returns the current value and resets it to the
original. -/
structure Resetable where
  original : String
  current : String
deriving DecidableEq, Repr

/-- `new Resetable(v)`. -/
def Resetable.make (v : String) : Resetable :=
  { original := v, current := v }

/-- `Resetable#set(v)`. -/
def Resetable.set (r : Resetable) (v : String) : Resetable :=
  { r with current := v }

/-- `Resetable#pull()`: returns the current value, resetting the cell. -/
def Resetable.pull (r : Resetable) : String × Resetable :=
  (r.current, { r with current := r.original })

/-- The fields of `this.oss.options` that `Aliyun.js` reads in `getUrl`. -/
structure AliyunOptions where
  secure : Bool
  region : String
deriving DecidableEq, Repr

/-- The mutable state of an `Aliyun.js` driver instance: its `_bucket`
Resetable.  (`this.oss` and its options never change after construction.) -/
structure AliyunState where
  bucket : Resetable
deriving DecidableEq, Repr

/-- The `Aliyun.js` constructor's `_bucket` initialisation:
`new Resetable(config.bucket)`. -/
def Aliyun.init (configBucket : String) : AliyunState :=
  { bucket := Resetable.make configBucket }

/-- `Aliyun#bucket(bucket)`: `this._bucket.set(bucket); return this`.  The
receiver is mutated; the value returned to the caller is the receiver
itself, so the function yields the updated state of that single object. -/
def Aliyun.bucket (s : AliyunState) (bucket : String) : AliyunState :=
  { s with bucket := s.bucket.set bucket }

/-- `Aliyun#exists(location)`: awaits `oss.head` and returns `true`.  There
is no `catch`: any backend error — a 404 for an absent key included —
propagates to the caller unwrapped. -/
def Aliyun.exists (c : Client) (location : String) : Except BackendError Bool :=
  match c.head location with
  | Except.ok _ => Except.ok true
  | Except.error e => Except.error e

/-- `Aliyun#put(location, content)`. -/
def Aliyun.put (c : Client) (location : String) (content : List Nat) :
    Except BackendError OSSResult :=
  c.put location content

/-- `Aliyun#delete(location)`: awaits `oss.delete` and returns `true`. -/
def Aliyun.delete (c : Client) (location : String) : Except BackendError Bool :=
  match c.delete location with
  | Except.ok _ => Except.ok true
  | Except.error e => Except.error e

/-- The template string
`` `${protocol}${bucket}.${region}.aliyuncs.com/${location}` `` of
`Aliyun#getUrl`, with `protocol` derived from `this.oss.options.secure`. -/
def urlOf (opts : AliyunOptions) (bucket location : String) : String :=
  (if opts.secure then "https://" else "http://") ++ bucket ++ "." ++ opts.region
    ++ ".aliyuncs.com/" ++ location

/-- `Aliyun#getUrl(location, bucket)`: the effective bucket is the `bucket`
argument when it is truthy (present and non-empty), otherwise
`this._bucket.pull()` — which resets the Resetable, mutating the driver. -/
def Aliyun.getUrl (opts : AliyunOptions) (s : AliyunState) (location : String)
    (bucket : Option String) : String × AliyunState :=
  match bucket with
  | some b =>
    if b = "" then
      let p := s.bucket.pull
      (urlOf opts p.1 location, { s with bucket := p.2 })
    else
      (urlOf opts b location, s)
  | none =>
    let p := s.bucket.pull
    (urlOf opts p.1 location, { s with bucket := p.2 })

/-- `Aliyun#copy(src, dest, destBucket)`: pulls the bucket, builds the fully
qualified source reference `/${bucket}/${src}`, calls the SDK as
`oss.copy(dest, combinedDest)` (the backend switches source and
destination), and on success returns `this.getUrl(dest, destBucket)`. -/
def Aliyun.copy (c : Client) (opts : AliyunOptions) (s : AliyunState)
    (src dest : String) (destBucket : Option String) :
    Except BackendError String × AliyunState :=
  let p := s.bucket.pull
  let s1 : AliyunState := { s with bucket := p.2 }
  let combinedDest := "/" ++ p.1 ++ "/" ++ src
  match c.copy dest combinedDest with
  | Except.error e => (Except.error e, s1)
  | Except.ok _ =>
    let u := Aliyun.getUrl opts s1 dest destBucket
    (Except.ok u.1, u.2)

/-- `Aliyun#move(src, dest, destBucket)`: awaits
`this.copy(src, dest, destBucket, params)` then `this.delete(src)`,
returning the url from `copy`; an error from either step propagates. -/
def Aliyun.move (c : Client) (opts : AliyunOptions) (s : AliyunState)
    (src dest : String) (destBucket : Option String) :
    Except BackendError String × AliyunState :=
  let r := Aliyun.copy c opts s src dest destBucket
  match r.1 with
  | Except.error e => (Except.error e, r.2)
  | Except.ok url =>
    match c.delete src with
    | Except.error e => (Except.error e, r.2)
    | Except.ok _ => (Except.ok url, r.2)

/-- The configuration interface `AliyunOSSConfig` of `AliyunOSS.ts`. -/
structure AliyunOSSConfig where
  key : String
  secret : String
  bucket : String
  endpoint : Option String
  region : Option String
  internal : Option Bool
  secure : Option Bool
deriving DecidableEq, Repr

/-- The `configParams` object built by the `AliyunOSS` constructor:
`{ accessKeyId: config.key, accessKeySecret: config.secret, ...config }` —
the spread copies every field of `config` over the two credential aliases. -/
structure OSSFullOptions where
  accessKeyId : String
  accessKeySecret : String
  key : String
  secret : String
  bucket : String
  endpoint : Option String
  region : Option String
  internal : Option Bool
  secure : Option Bool
deriving DecidableEq, Repr

/-- `configParams` as a function of the constructor's `config` argument. -/
def mkConfigParams (config : AliyunOSSConfig) : OSSFullOptions :=
  { accessKeyId := config.key, accessKeySecret := config.secret,
    key := config.key, secret := config.secret, bucket := config.bucket,
    endpoint := config.endpoint, region := config.region,
    internal := config.internal, secure := config.secure }

/-- `AliyunOSS#bucket(bucket)` over an abstract OSS-client constructor
`mkOSS` (the external `new OSS(...)`): returns
`new OSS({ ...this.$config, bucket })` and performs no assignment to the
receiver, so the post-state of the adapter (`$config` here) is returned
unchanged alongside the fresh handle. -/
def AliyunOSS.bucketOf {κ : Type} (mkOSS : OSSFullOptions → κ)
    (config : OSSFullOptions) (bucket : String) : κ × OSSFullOptions :=
  (mkOSS { config with bucket := bucket }, config)

/-! ### Concrete clients and environments used as test inputs -/

/-- A backend success result carrying only a recording tag. -/
def okRes (t : String) : OSSResult :=
  { contentLength := "", lastModified := "", tag := t }

/-- The backend's not-found error: `name = 'NoSuchKeyError'`, HTTP 404. -/
def e404 : BackendError :=
  { name := "NoSuchKeyError", status := some 404 }

/-- A non-404 backend error (e.g. an authorization failure). -/
def e403 : BackendError :=
  { name := "AccessDeniedError", status := some 403 }

/-- A client on which every primitive succeeds; `copy` records the two
arguments it received in the result's tag, separated by `|`. -/
def baseClient : Client :=
  { head := fun _ => Except.ok (okRes "head"),
    get := fun _ => Except.ok { content := [116, 101], meta := okRes "get" },
    put := fun _ _ => Except.ok (okRes "put"),
    delete := fun _ => Except.ok (okRes "delete"),
    copy := fun n s => Except.ok (okRes (n ++ "|" ++ s)),
    signatureUrl := fun _ _ _ => Except.ok "signed",
    getStream := fun _ => Except.ok { stream := { sid := 7 } },
    putStream := fun _ _ => Except.ok (okRes "putStream"),
    generateObjectUrl := fun l => "http://bucket.region.aliyuncs.com/" ++ l }

/-- A client whose `head` throws the backend's 404 not-found error. -/
def c404 : Client :=
  { baseClient with head := fun _ => Except.error e404 }

/-- A client whose `delete` throws a non-404 backend error. -/
def cDelFail : Client :=
  { baseClient with delete := fun _ => Except.error e403 }

/-- A client whose `getStream` throws the backend's not-found error. -/
def cStreamNF : Client :=
  { baseClient with getStream := fun _ => Except.error e404 }

/-- A client whose `copy` throws an error recording the two arguments it
received in the error's name, separated by `|`: used to observe exactly
which source/destination strings a driver passes to the SDK. -/
def recErrClient : Client :=
  { baseClient with copy := fun n s => Except.error { name := n ++ "|" ++ s, status := none } }

/-- A family of clients whose `signatureUrl` succeeds with an arbitrary
function of its three arguments: used to observe exactly which signing
parameters a driver passes to the SDK. -/
def signProbeOk (f : String → Nat → Option Nat → String) : Client :=
  { baseClient with signatureUrl := fun loc ex exy => Except.ok (f loc ex exy) }

/-- A concrete JavaScript runtime environment. -/
def envC : Env :=
  { decode := fun e b => e ++ toString b.length,
    toNumber := fun s => (s.length : Int),
    toDate := fun s => s.length }

/-! ### Helper lemmas -/

/-- `AliyunOSS.copy` is a function of the single SDK call `copy(dest, src)`. -/
theorem AliyunOSS.copy_det (c c' : Client) (src dest : String)
    (h : c.copy dest src = c'.copy dest src) :
    AliyunOSS.copy c src dest = AliyunOSS.copy c' src dest := by
  unfold AliyunOSS.copy
  rw [h]

/-- `AliyunOSS.delete` is a function of the single SDK call `delete(location)`. -/
theorem AliyunOSS.delete_det (c c' : Client) (location : String)
    (h : c.delete location = c'.delete location) :
    AliyunOSS.delete c location = AliyunOSS.delete c' location := by
  unfold AliyunOSS.delete
  rw [h]

/-- Empty signed-url options: `getSignedUrl(location)` with no options. -/
def noOpts : SignedUrlOptions :=
  { expiry := none, expires := none }

/-- Concrete driver options: insecure transport, region `r`. -/
def opts0 : AliyunOptions :=
  { secure := false, region := "r" }

/-! ### Claim theorems -/

/-- C1: `move(src, dest)` is `copy(src, dest)` followed by `delete(src)`:
it succeeds exactly when both SDK steps succeed; when `copy` succeeded and
`delete` fails, the error from `delete` is surfaced to the caller; and the
result is a function of exactly those two SDK calls, so no further backend
call (in particular no rollback of the copied destination) is made.  The
final conjunct states the delete-error surfacing for the legacy `Aliyun.js`
driver as well. -/
theorem C1_move_is_copy_then_delete (c : Client) (src dest : String)
    (opts : AliyunOptions) (s : AliyunState) (db : Option String) :
    ((∃ r, AliyunOSS.move c src dest = Except.ok r) ↔
      ((∃ a, c.copy dest src = Except.ok a) ∧ (∃ b, c.delete src = Except.ok b)))
    ∧ (∀ a e, c.copy dest src = Except.ok a → c.delete src = Except.error e →
        AliyunOSS.move c src dest = Except.error (handleError e src))
    ∧ (∀ c' : Client, c.copy dest src = c'.copy dest src →
        c.delete src = c'.delete src →
        AliyunOSS.move c src dest = AliyunOSS.move c' src dest)
    ∧ (∀ a e, c.copy dest ("/" ++ s.bucket.current ++ "/" ++ src) = Except.ok a →
        c.delete src = Except.error e →
        (Aliyun.move c opts s src dest db).1 = Except.error e) := by
  refine ⟨?_, ?_, ?_, ?_⟩
  · cases h1 : c.copy dest src with
    | error e => simp [AliyunOSS.move, AliyunOSS.copy, h1]
    | ok a =>
      cases h2 : c.delete src with
      | error e => simp [AliyunOSS.move, AliyunOSS.copy, AliyunOSS.delete, h1, h2]
      | ok b => simp [AliyunOSS.move, AliyunOSS.copy, AliyunOSS.delete, h1, h2]
  · intro a e h1 h2
    simp [AliyunOSS.move, AliyunOSS.copy, AliyunOSS.delete, h1, h2]
  · intro c' h1 h2
    unfold AliyunOSS.move
    rw [AliyunOSS.copy_det c c' src dest h1, AliyunOSS.delete_det c c' src h2]
  · intro a e h1 h2
    simp [Aliyun.move, Aliyun.copy, Resetable.pull, h1, h2]

/-- C1 witness: on a client whose `delete` fails after a successful copy,
`move` surfaces the classified delete error. -/
theorem C1_move_is_copy_then_delete_witness :
    AliyunOSS.move cDelFail "a" "b" = Except.error (handleError e403 "a") :=
  (C1_move_is_copy_then_delete cDelFail "a" "b" opts0 (Aliyun.init "b1") none).2.1
    (okRes ("b" ++ "|" ++ "a")) e403 rfl rfl

/-- C2 counterexample: in the legacy `Aliyun.js` driver, `exists` on a key
whose `head` throws the backend's 404 not-found error raises that error to
the caller instead of returning `{ exists: false, raw }` — `Aliyun#exists`
has no `catch` at all. -/
theorem C2_counterexample :
    Aliyun.exists c404 "some-file.jpg" = Except.error e404 := rfl

/-- C2 amended: the `AliyunOSS` driver maps a backend `head` error with
status 404 to the success result `{ exists: false, raw: e }` and raises
(classified) only on other backend errors, but the legacy `Aliyun` driver
propagates every `head` error to the caller, 404 included. -/
theorem C2_exists_not_found (c : Client) (location : String) (e : BackendError)
    (h : c.head location = Except.error e) :
    (e.status = some 404 →
      AliyunOSS.exists c location = Except.ok { «exists» := false, raw := Raw.err e })
    ∧ (e.status ≠ some 404 →
      AliyunOSS.exists c location = Except.error (handleError e location))
    ∧ Aliyun.exists c location = Except.error e := by
  refine ⟨?_, ?_, ?_⟩
  · intro h4
    simp [AliyunOSS.exists, h, h4]
  · intro h4
    simp [AliyunOSS.exists, h, h4]
  · simp [Aliyun.exists, h]

/-- C2 witness: a concrete 404-throwing client on which `AliyunOSS.exists`
returns `{ exists: false }` without raising. -/
theorem C2_exists_not_found_witness :
    AliyunOSS.exists c404 "k" = Except.ok { «exists» := false, raw := Raw.err e404 } :=
  (C2_exists_not_found c404 "k" e404 rfl).1 rfl

/-- C3 counterexample: `AliyunOSS.getStream` has no `try`/`catch`, so the
backend's raw not-found error crosses the contract boundary unwrapped —
the surfaced failure is the `BackendError` itself, not the `FileNotFound`
taxonomy error that `handleError` assigns to that error. -/
theorem C3_counterexample :
    AliyunOSS.getStream cStreamNF "bad.txt" = Except.error e404
    ∧ handleError e404 "bad.txt" = DriverError.fileNotFound e404 "bad.txt" :=
  ⟨rfl, by decide⟩

/-- C3 amended: `handleError` classifies every backend error into the
taxonomy — a `NoSuchKeyError` becomes `FileNotFound` with the original
cause, anything else becomes `UnknownException` carrying the original cause
and the backend code string — and every failure surfaced by the `AliyunOSS`
contract operations other than `getStream` is such a classified error;
`getStream` alone propagates the raw backend error unwrapped. -/
theorem C3_error_taxonomy (c : Client) (env : Env) (location src dest : String)
    (content : List Nat) (options : SignedUrlOptions) :
    (∀ e path, (e.name = "NoSuchKeyError" →
        handleError e path = DriverError.fileNotFound e path)
      ∧ (e.name ≠ "NoSuchKeyError" →
        handleError e path = DriverError.unknownException e e.name path))
    ∧ (∀ d, AliyunOSS.exists c location = Except.error d →
        ∃ e, d = handleError e location)
    ∧ (∀ d, AliyunOSS.getBuffer c location = Except.error d →
        ∃ e, d = handleError e location)
    ∧ (∀ d enc, AliyunOSS.get c env location enc = Except.error d →
        ∃ e, d = handleError e location)
    ∧ (∀ d, AliyunOSS.put c location content = Except.error d →
        ∃ e, d = handleError e location)
    ∧ (∀ d, AliyunOSS.delete c location = Except.error d →
        ∃ e, d = handleError e location)
    ∧ (∀ d, AliyunOSS.copy c src dest = Except.error d →
        ∃ e, d = handleError e src)
    ∧ (∀ d, AliyunOSS.getSignedUrl c location options = Except.error d →
        ∃ e, d = handleError e location)
    ∧ (∀ d, AliyunOSS.getStat c env location = Except.error d →
        ∃ e, d = handleError e location)
    ∧ (∀ d, AliyunOSS.move c src dest = Except.error d →
        ∃ e, d = handleError e src)
    ∧ (∀ e, c.getStream location = Except.error e →
        AliyunOSS.getStream c location = Except.error e) := by
  refine ⟨?_, ?_, ?_, ?_, ?_, ?_, ?_, ?_, ?_, ?_, ?_⟩
  · intro e path
    constructor
    · intro hn
      simp [handleError, hn]
    · intro hn
      simp [handleError, hn]
  · intro d h
    cases hc : c.head location with
    | ok r => simp [AliyunOSS.exists, hc] at h
    | error e =>
      by_cases h4 : e.status = some 404
      · simp [AliyunOSS.exists, hc, h4] at h
      · simp [AliyunOSS.exists, hc, h4] at h
        exact ⟨e, h.symm⟩
  · intro d h
    cases hc : c.get location with
    | ok r => simp [AliyunOSS.getBuffer, hc] at h
    | error e =>
      simp [AliyunOSS.getBuffer, hc] at h
      exact ⟨e, h.symm⟩
  · intro d enc h
    cases hc : c.get location with
    | ok r => simp [AliyunOSS.get, AliyunOSS.getBuffer, hc] at h
    | error e =>
      simp [AliyunOSS.get, AliyunOSS.getBuffer, hc] at h
      exact ⟨e, h.symm⟩
  · intro d h
    cases hc : c.put location content with
    | ok r => simp [AliyunOSS.put, hc] at h
    | error e =>
      simp [AliyunOSS.put, hc] at h
      exact ⟨e, h.symm⟩
  · intro d h
    cases hc : c.delete location with
    | ok r => simp [AliyunOSS.delete, hc] at h
    | error e =>
      simp [AliyunOSS.delete, hc] at h
      exact ⟨e, h.symm⟩
  · intro d h
    cases hc : c.copy dest src with
    | ok r => simp [AliyunOSS.copy, hc] at h
    | error e =>
      simp [AliyunOSS.copy, hc] at h
      exact ⟨e, h.symm⟩
  · intro d h
    cases hc : c.signatureUrl location (mkSignParams options).1 (mkSignParams options).2 with
    | ok r => simp [AliyunOSS.getSignedUrl, hc] at h
    | error e =>
      simp [AliyunOSS.getSignedUrl, hc] at h
      exact ⟨e, h.symm⟩
  · intro d h
    cases hc : c.head location with
    | ok r => simp [AliyunOSS.getStat, hc] at h
    | error e =>
      simp [AliyunOSS.getStat, hc] at h
      exact ⟨e, h.symm⟩
  · intro d h
    cases h1 : c.copy dest src with
    | error e =>
      simp [AliyunOSS.move, AliyunOSS.copy, h1] at h
      exact ⟨e, h.symm⟩
    | ok a =>
      cases h2 : c.delete src with
      | error e =>
        simp [AliyunOSS.move, AliyunOSS.copy, AliyunOSS.delete, h1, h2] at h
        exact ⟨e, h.symm⟩
      | ok b => simp [AliyunOSS.move, AliyunOSS.copy, AliyunOSS.delete, h1, h2] at h
  · intro e h
    simp [AliyunOSS.getStream, h]

/-- C3 witness: a concrete failing `delete` whose surfaced error is the
classification `handleError` produces. -/
theorem C3_error_taxonomy_witness :
    ∃ e, handleError e403 "k" = handleError e "k" :=
  (C3_error_taxonomy cDelFail envC "k" "a" "b" [] noOpts).2.2.2.2.2.1
    (handleError e403 "k") rfl

/-- C4 counterexample: `AliyunOSS.move` succeeds with `raw` equal to the
JavaScript value `undefined` (`return { raw: undefined }`), so the `raw`
field of a successful operation is not always defined. -/
theorem C4_counterexample :
    AliyunOSS.move baseClient "a" "b" = Except.ok { raw := Raw.undef } := rfl

/-- C4 amended: every successful `AliyunOSS` envelope operation other than
`move` has a defined `raw` field (even the logical not-found result
`exists: false`, whose `raw` is the caught backend error); `move` alone
returns `{ raw: undefined }`.  `content` appears only in the envelopes of
the read operations (the `ContentResponse` of `get`/`getBuffer`). -/
theorem C4_raw_always_defined (c : Client) (env : Env) (location src dest : String)
    (content : List Nat) (options : SignedUrlOptions) :
    (∀ r, AliyunOSS.exists c location = Except.ok r → r.raw ≠ Raw.undef)
    ∧ (∀ r, AliyunOSS.getBuffer c location = Except.ok r → r.raw ≠ Raw.undef)
    ∧ (∀ r enc, AliyunOSS.get c env location enc = Except.ok r → r.raw ≠ Raw.undef)
    ∧ (∀ r, AliyunOSS.put c location content = Except.ok r → r.raw ≠ Raw.undef)
    ∧ (∀ r, AliyunOSS.delete c location = Except.ok r → r.raw ≠ Raw.undef)
    ∧ (∀ r, AliyunOSS.copy c src dest = Except.ok r → r.raw ≠ Raw.undef)
    ∧ (∀ r, AliyunOSS.getSignedUrl c location options = Except.ok r → r.raw ≠ Raw.undef)
    ∧ (∀ r, AliyunOSS.getStat c env location = Except.ok r → r.raw ≠ Raw.undef) := by
  refine ⟨?_, ?_, ?_, ?_, ?_, ?_, ?_, ?_⟩
  · intro r h
    cases hc : c.head location with
    | ok a =>
      simp [AliyunOSS.exists, hc] at h
      simp [← h]
    | error e =>
      by_cases h4 : e.status = some 404
      · simp [AliyunOSS.exists, hc, h4] at h
        simp [← h]
      · simp [AliyunOSS.exists, hc, h4] at h
  · intro r h
    cases hc : c.get location with
    | ok a =>
      simp [AliyunOSS.getBuffer, hc] at h
      simp [← h]
    | error e => simp [AliyunOSS.getBuffer, hc] at h
  · intro r enc h
    cases hc : c.get location with
    | ok a =>
      simp [AliyunOSS.get, AliyunOSS.getBuffer, hc] at h
      simp [← h]
    | error e => simp [AliyunOSS.get, AliyunOSS.getBuffer, hc] at h
  · intro r h
    cases hc : c.put location content with
    | ok a =>
      simp [AliyunOSS.put, hc] at h
      simp [← h]
    | error e => simp [AliyunOSS.put, hc] at h
  · intro r h
    cases hc : c.delete location with
    | ok a =>
      simp [AliyunOSS.delete, hc] at h
      simp [← h]
    | error e => simp [AliyunOSS.delete, hc] at h
  · intro r h
    cases hc : c.copy dest src with
    | ok a =>
      simp [AliyunOSS.copy, hc] at h
      simp [← h]
    | error e => simp [AliyunOSS.copy, hc] at h
  · intro r h
    cases hc : c.signatureUrl location (mkSignParams options).1 (mkSignParams options).2 with
    | ok a =>
      simp [AliyunOSS.getSignedUrl, hc] at h
      simp [← h]
    | error e => simp [AliyunOSS.getSignedUrl, hc] at h
  · intro r h
    cases hc : c.head location with
    | ok a =>
      simp [AliyunOSS.getStat, hc] at h
      simp [← h]
    | error e => simp [AliyunOSS.getStat, hc] at h

/-- C4 witness: the concrete `exists: true` response of the base client has
a defined `raw`. -/
theorem C4_raw_always_defined_witness :
    ({ «exists» := true, raw := Raw.res (okRes "head") } : ExistsResponse).raw ≠ Raw.undef :=
  (C4_raw_always_defined baseClient envC "k" "a" "b" [] noOpts).1
    { «exists» := true, raw := Raw.res (okRes "head") } rfl

/-- C5 counterexample: on the recording client, `AliyunOSS.copy("a", "b")`
reaches the SDK as `copy("b", "a")` — the recorded tag shows the first SDK
argument is the destination and the second is the source `"a"` — but the
source reference handed to the backend is the bare key: the recorded call
contains no `/` at all, so no `/bucket/key` qualification was supplied,
contrary to the claim. -/
theorem C5_counterexample :
    AliyunOSS.copy baseClient "a" "b"
      = Except.ok { raw := Raw.res (okRes ("b" ++ "|" ++ "a")) }
    ∧ ("b" ++ "|" ++ "a" : String).data.contains '/' = false :=
  ⟨rfl, by decide⟩

/-- C5 amended: both drivers compensate for the backend's reversed argument
order by invoking the SDK as `copy(dest, source)`; but only the legacy
`Aliyun.js` driver supplies the fully qualified source `/bucket/src` — the
`AliyunOSS` driver passes the bare source key.  Stated on the recording
client, whose `copy` error names exactly the two arguments it received. -/
theorem C5_copy_argument_order (opts : AliyunOptions) (s : AliyunState)
    (src dest : String) (destBucket : Option String) :
    AliyunOSS.copy recErrClient src dest
      = Except.error (handleError { name := dest ++ "|" ++ src, status := none } src)
    ∧ (Aliyun.copy recErrClient opts s src dest destBucket).1
      = Except.error
          { name := dest ++ "|" ++ ("/" ++ s.bucket.current ++ "/" ++ src),
            status := none } :=
  ⟨rfl, rfl⟩

/-- C6 counterexample: in the legacy `Aliyun.js` driver, after a pending
`bucket("b2")` override, two successive `getUrl("k")` calls with no
intervening configuration change return different strings — the first call
consumes the override and mutates the driver's bucket state back to the
default `"b1"`. -/
theorem C6_counterexample :
    (Aliyun.getUrl opts0 (Aliyun.bucket (Aliyun.init "b1") "b2") "k" none).1
      = "http://b2.r.aliyuncs.com/k"
    ∧ (Aliyun.getUrl opts0
        (Aliyun.getUrl opts0 (Aliyun.bucket (Aliyun.init "b1") "b2") "k" none).2
        "k" none).1
      = "http://b1.r.aliyuncs.com/k"
    ∧ (Aliyun.getUrl opts0 (Aliyun.bucket (Aliyun.init "b1") "b2") "k" none).2
      ≠ Aliyun.bucket (Aliyun.init "b1") "b2"
    ∧ ("http://b2.r.aliyuncs.com/k" : String) ≠ "http://b1.r.aliyuncs.com/k" :=
  ⟨rfl, rfl, by decide, by decide⟩

/-- C6 amended: `AliyunOSS.getUrl` is a pure function of the client's
`generateObjectUrl` configuration and the key; the legacy `Aliyun.getUrl`
consumes the pending one-shot bucket override, so it is pure (returns the
receiver's state unchanged, and a repeated call yields the identical
result) exactly when no override is pending — and a call with an explicit
non-empty bucket argument never touches the driver's state. -/
theorem C6_getUrl_pure (c c' : Client) (opts : AliyunOptions) (s : AliyunState)
    (location bArg : String) :
    (c.generateObjectUrl = c'.generateObjectUrl →
      AliyunOSS.getUrl c location = AliyunOSS.getUrl c' location)
    ∧ (s.bucket.current = s.bucket.original →
        (Aliyun.getUrl opts s location none).2 = s
        ∧ Aliyun.getUrl opts ((Aliyun.getUrl opts s location none).2) location none
            = Aliyun.getUrl opts s location none)
    ∧ (bArg ≠ "" → (Aliyun.getUrl opts s location (some bArg)).2 = s) := by
  refine ⟨?_, ?_, ?_⟩
  · intro h
    unfold AliyunOSS.getUrl
    rw [h]
  · intro h
    obtain ⟨⟨o, cur⟩⟩ := s
    simp only [] at h
    subst h
    exact ⟨rfl, rfl⟩
  · intro h
    simp [Aliyun.getUrl, h]

/-- C6 witness: with no pending override, a legacy `getUrl` call leaves the
driver state unchanged and repeats identically. -/
theorem C6_getUrl_pure_witness :
    (Aliyun.getUrl opts0 (Aliyun.init "b1") "k" none).2 = Aliyun.init "b1"
    ∧ Aliyun.getUrl opts0 ((Aliyun.getUrl opts0 (Aliyun.init "b1") "k" none).2) "k" none
        = Aliyun.getUrl opts0 (Aliyun.init "b1") "k" none :=
  (C6_getUrl_pure baseClient baseClient opts0 (Aliyun.init "b1") "k" "x").2.1 rfl

/-- Stated from the spec's words, for comparison with the implementation:
`get(K, encoding)` equals `getBuffer(K).content` decoded with `encoding`,
together with `getBuffer(K)`'s raw result. -/
def get_fromSpec (c : Client) (env : Env) (location encoding : String) :
    Except DriverError (ContentResponse String) :=
  (AliyunOSS.getBuffer c location).map
    fun b => { content := env.decode encoding b.content, raw := b.raw }

/-- C7: `AliyunOSS.get` coincides with the specification reading — the
decoded `getBuffer` content with `getBuffer`'s raw result — the omitted
encoding defaults to UTF-8, and `get` fails with exactly the errors of
`getBuffer`. -/
theorem C7_get_refines_getBuffer (c : Client) (env : Env) (location encoding : String) :
    AliyunOSS.get c env location encoding = get_fromSpec c env location encoding
    ∧ AliyunOSS.getDefaultEnc c env location = AliyunOSS.get c env location "utf-8"
    ∧ (∀ d, AliyunOSS.get c env location encoding = Except.error d
        ↔ AliyunOSS.getBuffer c location = Except.error d) := by
  refine ⟨?_, rfl, ?_⟩
  · unfold AliyunOSS.get get_fromSpec
    cases h : AliyunOSS.getBuffer c location <;> simp [Except.map]
  · intro d
    unfold AliyunOSS.get
    cases h : AliyunOSS.getBuffer c location <;> simp

/-- C7 witness: the equivalence at a concrete client and environment. -/
theorem C7_get_refines_getBuffer_witness :
    AliyunOSS.get baseClient envC "k" "utf-8" = get_fromSpec baseClient envC "k" "utf-8" :=
  (C7_get_refines_getBuffer baseClient envC "k" "utf-8").1

/-- C8: the `params` object of `getSignedUrl` carries `expires = 900` when
no `expiry` option is given and `expires = E` for `expiry: E`, and the SDK
`signatureUrl` call receives exactly those parameters: on the probe client
family, whose `signatureUrl` succeeds with an arbitrary function of its
arguments, the signed response encodes the caller's expiry. -/
theorem C8_signed_url_expiry (f : String → Nat → Option Nat → String)
    (location : String) (E : Nat) :
    mkSignParams noOpts = (900, none)
    ∧ mkSignParams { expiry := some E, expires := none } = (E, some E)
    ∧ AliyunOSS.getSignedUrl (signProbeOk f) location noOpts
        = Except.ok { signedUrl := f location 900 none,
                      raw := Raw.str (f location 900 none) }
    ∧ AliyunOSS.getSignedUrl (signProbeOk f) location { expiry := some E, expires := none }
        = Except.ok { signedUrl := f location E (some E),
                      raw := Raw.str (f location E (some E)) } :=
  ⟨rfl, rfl, rfl, rfl⟩

/-- C9 counterexample: the legacy `Aliyun#bucket` mutates the receiver —
the chainable value it returns (`this`) is the very driver whose observable
bucket state changed from the configured `"b1"` to `"b2"` — rather than
returning a new handle and leaving the receiver unchanged. -/
theorem C9_counterexample :
    Aliyun.bucket (Aliyun.init "b1") "b2" ≠ Aliyun.init "b1"
    ∧ (Aliyun.bucket (Aliyun.init "b1") "b2").bucket.current = "b2"
    ∧ (Aliyun.init "b1").bucket.current = "b1" :=
  ⟨by decide, rfl, rfl⟩

/-- C9 amended: `AliyunOSS#bucket` builds a fresh client from the adapter's
configuration with only the bucket replaced and returns the adapter's own
state unchanged; the legacy `Aliyun#bucket` instead sets the receiver's
Resetable bucket to the new value (keeping the configured original) and
hands back the mutated receiver. -/
theorem C9_bucket_scoping {κ : Type} (mkOSS : OSSFullOptions → κ)
    (config : OSSFullOptions) (s : AliyunState) (b : String) :
    (AliyunOSS.bucketOf mkOSS config b).2 = config
    ∧ (AliyunOSS.bucketOf mkOSS config b).1 = mkOSS { config with bucket := b }
    ∧ (Aliyun.bucket s b).bucket.current = b
    ∧ (Aliyun.bucket s b).bucket.original = s.bucket.original :=
  ⟨rfl, rfl, rfl, rfl⟩

/-- C10: the legacy bucket override is one-shot.  After `bucket(B)`:
a `getUrl` without an explicit bucket uses `B` and resets the driver's
bucket to the configured original; on the reset state a further `getUrl`
uses the configured original and leaves the state reset; a `copy` reaches
the SDK with the `B`-qualified source `/B/src` and likewise leaves the
bucket reset; and a `getUrl` with an explicit non-empty bucket argument
does not consume the pending override. -/
theorem C10_one_shot_bucket_override (opts : AliyunOptions) (s : AliyunState)
    (b k src dest bArg : String) (destBucket : Option String) :
    Aliyun.getUrl opts (Aliyun.bucket s b) k none
      = (urlOf opts b k, { bucket := Resetable.make s.bucket.original })
    ∧ Aliyun.getUrl opts { bucket := Resetable.make s.bucket.original } k none
      = (urlOf opts s.bucket.original k, { bucket := Resetable.make s.bucket.original })
    ∧ (Aliyun.copy recErrClient opts (Aliyun.bucket s b) src dest destBucket).1
      = Except.error { name := dest ++ "|" ++ ("/" ++ b ++ "/" ++ src), status := none }
    ∧ (Aliyun.copy recErrClient opts (Aliyun.bucket s b) src dest destBucket).2
      = { bucket := Resetable.make s.bucket.original }
    ∧ (bArg ≠ "" →
        Aliyun.getUrl opts (Aliyun.bucket s b) k (some bArg)
          = (urlOf opts bArg k, Aliyun.bucket s b)) := by
  refine ⟨rfl, rfl, rfl, rfl, ?_⟩
  intro h
  simp [Aliyun.getUrl, h]

/-- C10 witness: an explicit-bucket `getUrl` right after an override leaves
the override in place. -/
theorem C10_one_shot_bucket_override_witness :
    Aliyun.getUrl opts0 (Aliyun.bucket (Aliyun.init "b1") "b2") "k" (some "bx")
      = (urlOf opts0 "bx" "k", Aliyun.bucket (Aliyun.init "b1") "b2") :=
  (C10_one_shot_bucket_override opts0 (Aliyun.init "b1") "b2" "k" "s" "d" "bx" none).2.2.2.2
    (by decide)
